import Mathlib

/-!
Shallow embedding of the paginated-fetch / detail-join / CSV-report pipeline of
`export_inactive_packages.py` (deprecated) and `export_lab_results.py` from the
t3-api-examples repository.

JSON payloads are modelled by the inductive `JVal`; Python dictionaries are
modelled as ordered association lists (`Rec`), with Python's `dict(items)` /
`{**a, **b}` semantics (first-occurrence position, last value wins) captured by
`pyDict`.  Python floats appearing here are decimal values produced by
`float()` on digit/dot strings and are represented exactly by rationals.
Exceptions are modelled with `Except String`, the string naming the exception
class.
-/

/-- A JSON-like value as handled by the scripts (`response.json()` payloads). -/
inductive JVal where
  | null : JVal
  | bool (b : Bool) : JVal
  | num (q : ℚ) : JVal
  | str (s : String) : JVal
  | arr (xs : List JVal) : JVal
  | obj (fields : List (String × JVal)) : JVal

/-- A Python dictionary with string keys, as an ordered association list. -/
abbrev Rec := List (String × JVal)

/-- Python truthiness of a value (`if response_payload:` etc.). -/
def truthy : JVal → Bool
  | .null => false
  | .bool b => b
  | .num q => q != 0
  | .str s => s != ""
  | .arr xs => !xs.isEmpty
  | .obj f => !f.isEmpty

/-- Lookup of a key in a dictionary (first occurrence). -/
def recFind? : Rec → String → Option JVal
  | [], _ => none
  | kv :: rest, k => if kv.1 = k then some kv.2 else recFind? rest k

/-- The keys of a dictionary, in order. -/
def recKeys (r : Rec) : List String := r.map (fun kv => kv.1)

/-- Python `d[k] = v`: update in place if the key exists, else append. -/
def recSet (r : Rec) (k : String) (v : JVal) : Rec :=
  if k ∈ recKeys r then
    r.map (fun kv => if kv.1 = k then (k, v) else kv)
  else
    r ++ [(k, v)]

/-- Python `dict(items)` (also `{**a, **b}` on `a ++ b`): the first occurrence
of a key fixes its position, the last value for the key wins. -/
def pyDict (items : List (String × JVal)) : Rec :=
  items.foldl (fun acc kv => recSet acc kv.1 kv.2) []

/-- `v.get(k)` on a Python value: `None` default for dictionaries,
`AttributeError` otherwise. -/
def pyGet (v : JVal) (k : String) : Except String JVal :=
  match v with
  | .obj f => .ok ((recFind? f k).getD .null)
  | _ => .error "AttributeError"

/-- `v[k]` for a string key: `KeyError` if absent, `TypeError` if `v` is not a
dictionary. -/
def pySubscr (v : JVal) (k : String) : Except String JVal :=
  match v with
  | .obj f =>
    match recFind? f k with
    | some x => .ok x
    | none => .error "KeyError"
  | _ => .error "TypeError"

/-- `v[i]` for an integer index: lists and strings are subscriptable,
anything else raises `TypeError`. -/
def pyIndex (v : JVal) (i : ℕ) : Except String JVal :=
  match v with
  | .arr xs =>
    match xs[i]? with
    | some x => .ok x
    | none => .error "IndexError"
  | .str s =>
    match s.toList[i]? with
    | some c => .ok (.str (String.mk [c]))
    | none => .error "IndexError"
  | _ => .error "TypeError"

/-- Python `s.startswith(p)`, computed on the character lists. -/
def strStartsWith (s p : String) : Bool := p.toList.isPrefixOf s.toList

/-- Is the value a Python `dict`? (`isinstance(v, dict)`). -/
def JVal.isObj : JVal → Bool
  | .obj _ => true
  | _ => false

/-- The item list produced by `flatten_dict` before the final `dict(...)`
call: keys are joined with `"."`, nested dictionaries are recursed into,
everything else is a leaf.  `parentKey = ""` plays the role of the falsy
default `parent_key=""`. -/
def flattenFields : List (String × JVal) → String → List (String × JVal)
  | [], _ => []
  | (k, v) :: rest, parentKey =>
    let newKey := if parentKey = "" then k else parentKey ++ "." ++ k
    (match v with
     | .obj f2 => flattenFields f2 newKey
     | v => [(newKey, v)]) ++ flattenFields rest parentKey

/-- `flatten_dict(d=d)` with the default separator `"."` and parent key
`""`, as used by both scripts. -/
def flatten_dict (d : List (String × JVal)) : Rec :=
  pyDict (flattenFields d "")

example : flatten_dict [("a", .num 1), ("b", .obj [("c", .str "x")])]
    = [("a", .num 1), ("b.c", .str "x")] := by
  simp [flatten_dict, flattenFields, pyDict, recSet, recKeys]

example : flatten_dict [("a.b", .num 1), ("a", .obj [("b", .num 2)])]
    = [("a.b", .num 2)] := by
  simp [flatten_dict, flattenFields, pyDict, recSet, recKeys]

/-! ### The regular expressions of `extract_initial_package_quantity_and_unit_or_null`

The three patterns used by the scripts are sequences of literals and greedy
one-or-more character classes (`[0-9,.]+`, `[a-zA-Z\s]+`).  `matchToks`
implements `re.match` for such a sequence with the backtracking semantics of
Python's engine: a greedy class first consumes its maximal run and then gives
back one character at a time (down to one) until the rest of the pattern
matches.  `\s` is modelled by its ASCII whitespace characters. -/

/-- A regex token: a literal, or a greedy one-or-more character class that
captures a group. -/
inductive RTok where
  | lit (l : List Char) : RTok
  | grp (p : Char → Bool) : RTok

deriving instance DecidableEq for Except

/-- `re.match` of a token sequence against the start of a string, returning
the captured groups in order (`None` on no match). -/
def matchToks : List RTok → List Char → Option (List (List Char))
  | [], _ => some []
  | .lit l :: ts, s =>
    if l.isPrefixOf s then matchToks ts (s.drop l.length) else none
  | .grp p :: ts, s =>
    ((List.range (s.takeWhile p).length).reverse.map (fun j => j + 1)).findSome?
      (fun k => (matchToks ts (s.drop k)).map (fun caps => s.take k :: caps))

/-- The class `[0-9,.]`. -/
def isQuantChar (c : Char) : Bool := c.isDigit || c == ',' || c == '.'

/-- ASCII `\s`. -/
def isSpaceChar (c : Char) : Bool :=
  c == ' ' || c == '\t' || c == '\n' || c == '\r' || c == '\x0b' || c == '\x0c'

/-- The class `[a-zA-Z\s]`. -/
def isUnitChar (c : Char) : Bool := c.isAlpha || isSpaceChar c

/-- `^Packaged ([0-9,.]+) ([a-zA-Z\s]+) of`. -/
def patPackagedUnit : List RTok :=
  [.lit "Packaged ".toList, .grp isQuantChar, .lit " ".toList,
   .grp isUnitChar, .lit " of".toList]

/-- `^Packaged ([0-9,.]+) plant`. -/
def patPackagedPlant : List RTok :=
  [.lit "Packaged ".toList, .grp isQuantChar, .lit " plant".toList]

/-- `^Repackaged ([0-9,.]+) plant`. -/
def patRepackagedPlant : List RTok :=
  [.lit "Repackaged ".toList, .grp isQuantChar, .lit " plant".toList]

/-- The numeric value of a digit string. -/
def digitsToNat (cs : List Char) : ℕ :=
  cs.foldl (fun acc c => acc * 10 + (c.toNat - 48)) 0

/-- Python `float(s)` on a string drawn from `[0-9.]*` (the captured group
with commas removed): defined exactly when the string has at most one dot and
at least one digit; `none` models the `ValueError` raised otherwise. -/
def parseFloat (cs : List Char) : Option ℚ :=
  let intPart := cs.takeWhile (fun c => c != '.')
  let rest := cs.dropWhile (fun c => c != '.')
  match rest with
  | [] =>
    if !cs.isEmpty && cs.all Char.isDigit then some (mkRat (digitsToNat cs) 1) else none
  | _ :: fracPart =>
    if intPart.all Char.isDigit && fracPart.all Char.isDigit
        && (!intPart.isEmpty || !fracPart.isEmpty) then
      some (mkRat (digitsToNat intPart * 10 ^ fracPart.length + digitsToNat fracPart)
        (10 ^ fracPart.length))
    else
      none

/-- `extract_initial_package_quantity_and_unit_or_null(description=...)`:
tries the three patterns in order; on a match, converts group 1 (commas
removed) with `float`, which may raise `ValueError`; returns `None` when no
pattern matches. -/
def extract_initial_package_quantity_and_unit_or_null (description : String) :
    Except String (Option (ℚ × String)) :=
  match matchToks patPackagedUnit description.toList with
  | some (g1 :: g2 :: _) =>
    match parseFloat (g1.filter (fun c => c != ',')) with
    | some q => .ok (some (q, String.mk g2))
    | none => .error "ValueError"
  | _ =>
  match matchToks patPackagedPlant description.toList with
  | some (g1 :: _) =>
    match parseFloat (g1.filter (fun c => c != ',')) with
    | some q => .ok (some (q, "Each"))
    | none => .error "ValueError"
  | _ =>
  match matchToks patRepackagedPlant description.toList with
  | some (g1 :: _) =>
    match parseFloat (g1.filter (fun c => c != ',')) with
    | some q => .ok (some (q, "Each"))
    | none => .error "ValueError"
  | _ => .ok none

example : extract_initial_package_quantity_and_unit_or_null "Packaged 5.0 Grams of Flower"
    = .ok (some (5, "Grams")) := by decide

example : extract_initial_package_quantity_and_unit_or_null "Packaged 3 plants"
    = .ok (some (3, "Each")) := by decide

example : extract_initial_package_quantity_and_unit_or_null "Repackaged 2 plants"
    = .ok (some (2, "Each")) := by decide

example : extract_initial_package_quantity_and_unit_or_null "Harvested from plant"
    = .ok none := by decide

example : extract_initial_package_quantity_and_unit_or_null "Packaged 1.2.3 Grams of"
    = .error "ValueError" := by decide

example : extract_initial_package_quantity_and_unit_or_null "Packaged 1,200 Grams of Flower"
    = .ok (some (1200, "Grams")) := by decide

/-! ### `make_request_with_retries`

The retry loop is modelled over an abstract stream of attempt outcomes: the
`i`-th call of `session.get(...)` either returns a JSON payload or raises one
of the three caught exception classes.  The model returns the result together
with the number of attempts actually made and the total `time.sleep` seconds
(the script sleeps `RETRY_DELAY` after every failed attempt, including the
last one before raising). -/

/-- Module-level constants of both scripts. -/
def PAGE_SIZE : ℕ := 500

def MAX_RETRIES : ℕ := 5

def RETRY_DELAY : ℕ := 5

def HISTORY_BATCH_SIZE : ℕ := 25

/-- Outcome of one `session.get` attempt: a decoded JSON payload, or one of
the three exception classes caught by the loop
(`requests.exceptions.Timeout`, `HTTPError`, `RequestException`). -/
inductive ReqOutcome where
  | success (v : JVal) : ReqOutcome
  | timeout : ReqOutcome
  | httpError (status : ℕ) (body : String) : ReqOutcome
  | reqException (msg : String) : ReqOutcome

/-- The payload of a successful attempt, `none` for any exception. -/
def toSuccess : ReqOutcome → Option JVal
  | .success v => some v
  | _ => none

/-- Observable behaviour of one `make_request_with_retries` call. -/
structure RetryRun where
  result : Except String JVal
  attemptsMade : ℕ
  sleepSeconds : ℕ

/-- The `while retries < max_retries` loop: `fuel = max_retries - retries`.
Each of the three `except` clauses falls through to the shared
`retries += 1; time.sleep(retry_delay)` code. -/
def retryAux (attempt : ℕ → ReqOutcome) (retryDelay : ℕ) : ℕ → ℕ → RetryRun
  | _retries, 0 => ⟨.error "Failed to complete request after max retries.", 0, 0⟩
  | retries, fuel + 1 =>
    match attempt retries with
    | .success v => ⟨.ok v, 1, 0⟩
    | .timeout =>
      let r := retryAux attempt retryDelay (retries + 1) fuel
      ⟨r.result, r.attemptsMade + 1, retryDelay + r.sleepSeconds⟩
    | .httpError _ _ =>
      let r := retryAux attempt retryDelay (retries + 1) fuel
      ⟨r.result, r.attemptsMade + 1, retryDelay + r.sleepSeconds⟩
    | .reqException _ =>
      let r := retryAux attempt retryDelay (retries + 1) fuel
      ⟨r.result, r.attemptsMade + 1, retryDelay + r.sleepSeconds⟩

/-- `make_request_with_retries` with the default `max_retries=MAX_RETRIES`
and `retry_delay=RETRY_DELAY` used by every call site. -/
def make_request_with_retries (attempt : ℕ → ReqOutcome) : RetryRun :=
  retryAux attempt RETRY_DELAY 0 MAX_RETRIES

/-! ### The paginated fetcher of `generate_report` -/

/-- `max_pages = math.ceil(int(count_response["total"]) / PAGE_SIZE)`,
exact-arithmetic reading of the float division. -/
def max_pages (total : ℕ) : ℕ := ⌈(total : ℚ) / (PAGE_SIZE : ℚ)⌉₊

/-- The page indices submitted to the pool:
`range(1, max_pages + 1)`, one fetch task per index. -/
def pageIndices (total : ℕ) : List ℕ := List.range' 1 (max_pages total)

/-- The packages contributed by one page task, from the body
`if response_payload and response_payload.get("data"):
packages.extend(response_payload["data"])` wrapped in
`try ... except Exception: log`.  A failed page (retries exhausted, or any
exception while handling the payload) contributes nothing; iterating a
string extends with its characters and iterating a dictionary with its keys,
as in Python. -/
def pagePackages (payload : Except String JVal) : List JVal :=
  match payload with
  | .error _ => []
  | .ok p =>
    if truthy p then
      match pyGet p "data" with
      | .error _ => []
      | .ok d =>
        if truthy d then
          match d with
          | .arr xs => xs
          | .str s => s.toList.map (fun c => .str (String.mk [c]))
          | .obj f => f.map (fun kv => .str kv.1)
          | _ => []
        else []
    else []

/-- The aggregation of all page tasks.  `as_completed` merges results in an
unspecified completion order; this model lists them in page order, and is
used only for order-insensitive facts (counts, emptiness). -/
def collectPages (total : ℕ) (fetch : ℕ → Except String JVal) : List JVal :=
  (pageIndices total).flatMap (fun p => pagePackages (fetch p))

/-! ### The detail joiners

Each batch of `HISTORY_BATCH_SIZE` packages fans out one request per package
and mutates each package only from its own future's result, inside a
`try ... except Exception: log` per package.  Since every record is mutated
exclusively from its own result, the batched concurrent execution computes a
pointwise map over the package list, whatever the completion order. -/

/-- The quantity side-computation of `fetch_package_histories`, after
`package["_history"]` has been assigned:
`if "_history" in package and package["_history"][0].get("descriptions"):`
followed by the regex extraction on
`package["_history"][0]["descriptions"][0]` and the tuple assignment to
`package["initialQuantity"], package["initialUnit"]`.  Any raised exception
is propagated (the caller catches and logs it). -/
def attachQuantityStep (pkg : Rec) : Except String Rec :=
  match recFind? pkg "_history" with
  | none => .ok pkg
  | some h =>
    match pyIndex h 0 with
    | .error e => .error e
    | .ok h0 =>
      match pyGet h0 "descriptions" with
      | .error e => .error e
      | .ok descs =>
        if truthy descs then
          match pySubscr h0 "descriptions" with
          | .error e => .error e
          | .ok descs2 =>
            match pyIndex descs2 0 with
            | .error e => .error e
            | .ok d0 =>
              match d0 with
              | .str s =>
                match extract_initial_package_quantity_and_unit_or_null s with
                | .error e => .error e
                | .ok (some (q, u)) =>
                  .ok (recSet (recSet pkg "initialQuantity" (.num q)) "initialUnit" (.str u))
                | .ok none => .ok pkg
              | _ => .error "TypeError"
        else .ok pkg

/-- How `fetch_package_histories` handles one package given its future's
outcome: a fetch failure is logged and leaves the package untouched; a
truthy payload gets `_history` attached, and an exception in the quantity
step is caught after that mutation. -/
def processHistoryResult (pkg : Rec) (res : Except String JVal) : Rec :=
  match res with
  | .error _ => pkg
  | .ok history =>
    if truthy history then
      match pyGet history "data" with
      | .error _ => pkg
      | .ok d =>
        match attachQuantityStep (recSet pkg "_history" d) with
        | .ok pkg2 => pkg2
        | .error _ => recSet pkg "_history" d
    else pkg

/-- `fetch_package_histories`: the pointwise map computed by the batched
concurrent joiner, with `results i` the outcome of package `i`'s request. -/
def fetch_package_histories (packages : List Rec) (results : ℕ → Except String JVal) :
    List Rec :=
  packages.mapIdx (fun i pkg => processHistoryResult pkg (results i))

/-- How `fetch_package_lab_results` (in `export_lab_results.py`) handles one
package: a truthy payload gets `_labresults` attached, any failure is logged
and leaves the package untouched. -/
def processLabResult (pkg : Rec) (res : Except String JVal) : Rec :=
  match res with
  | .error _ => pkg
  | .ok h =>
    if truthy h then
      match pyGet h "data" with
      | .error _ => pkg
      | .ok d => recSet pkg "_labresults" d
    else pkg

/-- `fetch_package_lab_results`: the pointwise map computed by the batched
concurrent joiner. -/
def fetch_package_lab_results (packages : List Rec) (results : ℕ → Except String JVal) :
    List Rec :=
  packages.mapIdx (fun i pkg => processLabResult pkg (results i))

/-! ### The report writers -/

/-- The observable content of a written CSV file: the header and, for each
written row, the dictionary handed to `csv.DictWriter` (the writer emits the
values in header order, empty for a missing key). -/
structure CsvFile where
  header : List String
  rows : List Rec

/-- `write_to_csv` of `export_inactive_packages.py`: field names are the
non-underscore keys of the first package, rows are built with
`package.get(key)` (default `None`).  `ok none` models the `else` branch
that only logs `"No inactive packages found..."` and writes no file. -/
def InactivePackages.write_to_csv (packages : List Rec) : Except String (Option CsvFile) :=
  match packages with
  | [] => .ok none
  | p0 :: _ =>
    let fieldnames := (recKeys p0).filter (fun k => !strStartsWith k "_")
    let rows := packages.map (fun pkg =>
      fieldnames.map (fun k => (k, (recFind? pkg k).getD .null)))
    .ok (some ⟨fieldnames, rows⟩)

/-- `priority_order` of `export_lab_results.write_to_csv`. -/
def priority_order : List String :=
  ["label", "item.name", "quantity", "unitOfMeasureAbbreviation"]

/-- The sort key of the `sorted(fieldnames, key=...)` call:
`priority_order.index(x)` when present, else `len(priority_order)` for
`labresult.`-prefixed names, else `len(priority_order) + 1`. -/
def sortKey (x : String) : ℕ :=
  if x ∈ priority_order then priority_order.indexOf x
  else if strStartsWith x "labresult." then priority_order.length
  else priority_order.length + 1

/-- Python's `sorted` is a stable sort; for a ℕ-valued key bounded by
`priority_order.length + 1` it equals this bucket concatenation, which keeps
the input order inside every bucket. -/
def orderedFieldnames (fieldnames : List String) : List String :=
  (List.range (priority_order.length + 2)).flatMap
    (fun b => fieldnames.filter (fun x => sortKey x == b))

/-- One output row of the lab-results report:
`{**{"labresult." + k: v for k, v in lab_result.items()},
**{k: v for k, v in pkg.items() if k != "_labresults"}}`. -/
def labRow (pkg : Rec) (lr : Rec) : Rec :=
  pyDict ((lr.map (fun kv => ("labresult." ++ kv.1, kv.2)))
    ++ (pkg.filter (fun kv => kv.1 != "_labresults")))

/-- Left-to-right effectful map: the evaluation of a Python list
comprehension or loop, stopping at the first raised exception. -/
def exceptMapM {α β : Type} (f : α → Except String β) : List α → Except String (List β)
  | [] => .ok []
  | a :: rest =>
    match f a with
    | .error e => .error e
    | .ok b =>
      match exceptMapM f rest with
      | .error e => .error e
      | .ok bs => .ok (b :: bs)

/-- The rows contributed by one package:
`[... for lab_result in pkg["_labresults"]]`.  The subscript raises
`KeyError` when the package has no `_labresults` key (detail fetch failed),
and iterating a non-list raises. -/
def labRowsOfPkg (pkg : Rec) : Except String (List Rec) :=
  match recFind? pkg "_labresults" with
  | none => .error "KeyError"
  | some (.arr xs) =>
    exceptMapM (fun lr =>
      match lr with
      | .obj f => Except.ok (labRow pkg f)
      | _ => Except.error "AttributeError") xs
  | some _ => .error "TypeError"

/-- `write_to_csv` of `export_lab_results.py`.  `fieldnames` is built from a
Python set comprehension whose iteration order is unspecified; `setOrder`
stands for that enumeration of the key set.  `csv.DictWriter` raises
`ValueError` when a row holds a key outside the field names. -/
def LabResults.write_to_csv (packages : List Rec) (setOrder : List String) :
    Except String (Option CsvFile) :=
  match packages with
  | [] => .ok none
  | _ :: _ =>
    match exceptMapM labRowsOfPkg packages with
    | .error e => .error e
    | .ok rowss =>
      let rows := rowss.flatten
      let ordered := orderedFieldnames setOrder
      if rows.all (fun r => r.all (fun kv => ordered.contains kv.1)) then
        .ok (some ⟨ordered, rows⟩)
      else .error "ValueError"

/-! ### Auxiliary definitions used only in theorem statements -/

/-- Did the writer produce a file? -/
def producesFile : Except String (Option CsvFile) → Bool
  | .ok (some _) => true
  | _ => false

/-- Lexicographic order on strings by code point, as Python compares `str`. -/
def charsLeB : List Char → List Char → Bool
  | [], _ => true
  | _ :: _, [] => false
  | a :: as, b :: bs =>
    if a.toNat < b.toNat then true
    else if a.toNat = b.toNat then charsLeB as bs
    else false

/-- Insertion into a sorted list of strings. -/
def insertSorted (x : String) : List String → List String
  | [] => [x]
  | y :: ys => if charsLeB x.toList y.toList then x :: y :: ys else y :: insertSorted x ys

/-- Insertion sort of strings, ascending. -/
def sortStrs : List String → List String
  | [] => []
  | x :: xs => insertSorted x (sortStrs xs)

/-- Modelled from the spec's words, for comparison with `orderedFieldnames`
(claim C6): the fixed preference list first, then the remaining columns in
alphabetical order. -/
def specOrderedFieldnames (fieldnames : List String) : List String :=
  (priority_order.filter (fun x => x ∈ fieldnames))
    ++ sortStrs (fieldnames.filter (fun x => x ∉ priority_order))

/-- A package carrying lab results: the base record with
`pkg["_labresults"]` set to the given list of lab-result dictionaries. -/
def mkLabPackage (base : Rec) (lrs : List Rec) : Rec :=
  recSet base "_labresults" (.arr (lrs.map JVal.obj))

/-- The rows the lab-results writer derives from structured input:
one row per (package, lab result) pair. -/
def labRowsModel (pkgs : List (Rec × List Rec)) : List Rec :=
  pkgs.flatMap (fun bl => bl.2.map (fun lr => labRow (mkLabPackage bl.1 bl.2) lr))

/-- A history response whose first entry has the given first description:
`{"data": [{"descriptions": [d]}]}`. -/
def mkHistoryResponse (d : String) : JVal :=
  .obj [("data", .arr [.obj [("descriptions", .arr [.str d])]])]


/-! ### Dictionary lemmas -/

theorem recFind?_eq_none (r : Rec) (k : String) (h : k ∉ recKeys r) :
    recFind? r k = none := by
  induction r with
  | nil => rfl
  | cons kv rest ih =>
    rw [recKeys] at h
    simp only [List.map_cons, List.mem_cons, not_or] at h
    have hne : kv.1 ≠ k := fun hc => h.1 hc.symm
    simp only [recFind?, if_neg hne]
    exact ih (by simpa [recKeys] using h.2)

theorem recFind?_map_update (r : Rec) (k : String) (v : JVal) :
    recFind? (r.map (fun kv => if kv.1 = k then (k, v) else kv)) k
      = if k ∈ recKeys r then some v else none := by
  induction r with
  | nil => rfl
  | cons kv rest ih =>
    by_cases h : kv.1 = k
    · simp [recFind?, recKeys, h]
    · have h2 : k ≠ kv.1 := fun hc => h hc.symm
      have hmem : (k ∈ kv.1 :: List.map (fun kv => kv.1) rest)
          ↔ (k ∈ List.map (fun kv => kv.1) rest) := by simp [h2]
      simp only [List.map_cons, recFind?, if_neg h, ih, recKeys]
      exact (if_congr hmem rfl rfl).symm

theorem recFind?_append_single (r : Rec) (k k' : String) (v : JVal) :
    recFind? (r ++ [(k, v)]) k' =
      (match recFind? r k' with
       | some x => some x
       | none => if k = k' then some v else none) := by
  induction r with
  | nil => simp [recFind?]
  | cons kv rest ih =>
    by_cases h : kv.1 = k'
    · simp [recFind?, h]
    · simp [recFind?, h, ih]

theorem recFind?_recSet_self (r : Rec) (k : String) (v : JVal) :
    recFind? (recSet r k v) k = some v := by
  unfold recSet
  by_cases h : k ∈ recKeys r
  · simp [h, recFind?_map_update]
  · simp [h, recFind?_append_single, recFind?_eq_none r k h]

theorem recFind?_map_update_ne (r : Rec) (k k' : String) (v : JVal) (h : k' ≠ k) :
    recFind? (r.map (fun kv => if kv.1 = k then (k, v) else kv)) k' = recFind? r k' := by
  induction r with
  | nil => rfl
  | cons kv rest ih =>
    by_cases hk : kv.1 = k
    · have h2 : k ≠ k' := fun hc => h hc.symm
      have h3 : kv.1 ≠ k' := by rw [hk]; exact h2
      simp [recFind?, hk, h2, h3, h, ih]
    · by_cases hk' : kv.1 = k'
      · simp [recFind?, hk, hk', h, ih]
      · simp [recFind?, hk, hk', h, ih]

theorem recFind?_recSet_ne (r : Rec) (k k' : String) (v : JVal) (h : k' ≠ k) :
    recFind? (recSet r k v) k' = recFind? r k' := by
  unfold recSet
  by_cases hm : k ∈ recKeys r
  · simp [hm, recFind?_map_update_ne r k k' v h]
  · have h2 : k ≠ k' := fun hc => h hc.symm
    simp [hm, recFind?_append_single, h2]
    cases recFind? r k' <;> simp

theorem recKeys_map_update (r : Rec) (k : String) (v : JVal) :
    recKeys (r.map (fun kv => if kv.1 = k then (k, v) else kv)) = recKeys r := by
  induction r with
  | nil => rfl
  | cons kv rest ih =>
    by_cases h : kv.1 = k
    · simp [recKeys, h] at ih ⊢
      exact ih
    · simp [recKeys, h] at ih ⊢
      exact ih

theorem recKeys_recSet (r : Rec) (k : String) (v : JVal) :
    recKeys (recSet r k v) = if k ∈ recKeys r then recKeys r else recKeys r ++ [k] := by
  unfold recSet
  by_cases h : k ∈ recKeys r
  · simp [h, recKeys_map_update]
  · have h2 : k ∉ List.map (fun kv => kv.1) r := by simpa [recKeys] using h
    simp [h, h2, recKeys]

theorem mem_recKeys_recSet (r : Rec) (k a : String) (v : JVal) :
    a ∈ recKeys (recSet r k v) ↔ a ∈ recKeys r ∨ a = k := by
  rw [recKeys_recSet]
  by_cases h : k ∈ recKeys r
  · rw [if_pos h]
    constructor
    · exact Or.inl
    · rintro (ha | rfl)
      · exact ha
      · exact h
  · rw [if_neg h]
    simp

theorem nodup_recKeys_recSet (r : Rec) (k : String) (v : JVal)
    (h : (recKeys r).Nodup) : (recKeys (recSet r k v)).Nodup := by
  rw [recKeys_recSet]
  by_cases hm : k ∈ recKeys r
  · simpa [hm] using h
  · rw [if_neg hm]
    simpa [List.nodup_append] using ⟨h, hm⟩

theorem mem_recSet (r : Rec) (k : String) (v : JVal) (kv : String × JVal)
    (h : kv ∈ recSet r k v) : kv ∈ r ∨ kv = (k, v) := by
  unfold recSet at h
  by_cases hm : k ∈ recKeys r
  · rw [if_pos hm] at h
    obtain ⟨kv0, hkv0, heq⟩ := List.mem_map.mp h
    by_cases hk : kv0.1 = k
    · right
      rw [if_pos hk] at heq
      exact heq.symm
    · left
      rw [if_neg hk] at heq
      exact heq ▸ hkv0
  · rw [if_neg hm] at h
    rcases List.mem_append.mp h with h1 | h2
    · exact Or.inl h1
    · exact Or.inr (by simpa using h2)

theorem mem_recKeys_foldl_recSet (items : List (String × JVal)) :
    ∀ (acc : Rec) (a : String),
      a ∈ recKeys (items.foldl (fun acc kv => recSet acc kv.1 kv.2) acc)
        ↔ a ∈ recKeys acc ∨ a ∈ items.map Prod.fst := by
  induction items with
  | nil => simp
  | cons kv rest ih =>
    intro acc a
    simp only [List.foldl_cons, List.map_cons, List.mem_cons]
    rw [ih, mem_recKeys_recSet]
    tauto

theorem mem_recKeys_pyDict (items : List (String × JVal)) (a : String) :
    a ∈ recKeys (pyDict items) ↔ a ∈ items.map Prod.fst := by
  unfold pyDict
  rw [mem_recKeys_foldl_recSet]
  simp [recKeys]

theorem nodup_recKeys_foldl_recSet (items : List (String × JVal)) :
    ∀ acc : Rec, (recKeys acc).Nodup →
      (recKeys (items.foldl (fun acc kv => recSet acc kv.1 kv.2) acc)).Nodup := by
  induction items with
  | nil => exact fun acc h => h
  | cons kv rest ih =>
    intro acc h
    exact ih _ (nodup_recKeys_recSet acc kv.1 kv.2 h)

theorem nodup_recKeys_pyDict (items : List (String × JVal)) :
    (recKeys (pyDict items)).Nodup :=
  nodup_recKeys_foldl_recSet items [] (by simp [recKeys])

theorem foldl_recSet_of_nodup (l : List (String × JVal)) :
    ∀ acc : Rec, (recKeys acc ++ recKeys l).Nodup →
      l.foldl (fun acc kv => recSet acc kv.1 kv.2) acc = acc ++ l := by
  induction l with
  | nil => intro acc _; simp
  | cons kv rest ih =>
    intro acc h
    have hk : kv.1 ∉ recKeys acc := by
      have hd := (List.nodup_append.mp h).2.2
      intro hc
      exact hd hc (by simp [recKeys])
    have hstep : recSet acc kv.1 kv.2 = acc ++ [kv] := by
      unfold recSet
      rw [if_neg hk]
    rw [List.foldl_cons, hstep, ih (acc ++ [kv]) ?_, List.append_assoc]
    · rfl
    · have : recKeys (acc ++ [kv]) ++ recKeys rest
          = recKeys acc ++ recKeys (kv :: rest) := by
        simp [recKeys]
      rw [this]
      exact h

theorem pyDict_eq_self_of_nodup (l : List (String × JVal))
    (h : (recKeys l).Nodup) : pyDict l = l := by
  unfold pyDict
  have := foldl_recSet_of_nodup l [] (by simpa [recKeys] using h)
  simpa using this

theorem mem_foldl_recSet (items : List (String × JVal)) :
    ∀ (acc : Rec) (kv : String × JVal),
      kv ∈ items.foldl (fun acc kv => recSet acc kv.1 kv.2) acc →
        kv ∈ acc ∨ kv ∈ items := by
  induction items with
  | nil => intro acc kv h; exact Or.inl (by simpa using h)
  | cons kv0 rest ih =>
    intro acc kv h
    rcases ih _ kv h with h1 | h2
    · rcases mem_recSet acc kv0.1 kv0.2 kv h1 with h3 | h4
      · exact Or.inl h3
      · exact Or.inr (by simp [h4])
    · exact Or.inr (List.mem_cons_of_mem _ h2)

theorem mem_pyDict (items : List (String × JVal)) (kv : String × JVal)
    (h : kv ∈ pyDict items) : kv ∈ items := by
  rcases mem_foldl_recSet items [] kv h with h1 | h2
  · simp at h1
  · exact h2

theorem flattenFields_flat (d : List (String × JVal))
    (h : ∀ kv ∈ d, kv.2.isObj = false) : flattenFields d "" = d := by
  induction d with
  | nil => simp [flattenFields]
  | cons kv rest ih =>
    obtain ⟨k, v⟩ := kv
    have hrest : flattenFields rest "" = rest :=
      ih (fun kv hkv => h kv (List.mem_cons_of_mem _ hkv))
    have hv : v.isObj = false := h (k, v) (by simp)
    cases v with
    | obj f => simp [JVal.isObj] at hv
    | null => simp [flattenFields, hrest]
    | bool b => simp [flattenFields, hrest]
    | num q => simp [flattenFields, hrest]
    | str s => simp [flattenFields, hrest]
    | arr xs => simp [flattenFields, hrest]

/-! ### Claim theorems -/

/-- C8: `flatten_dict` is idempotent on already-flat mappings: for every
dictionary whose values are all non-dictionaries,
`flatten(flatten(d)) == flatten(d)`. -/
theorem flatten_dict_idempotent_on_flat (d : List (String × JVal))
    (h : ∀ kv ∈ d, kv.2.isObj = false) :
    flatten_dict (flatten_dict d) = flatten_dict d := by
  unfold flatten_dict
  rw [flattenFields_flat d h]
  have hflat : ∀ kv ∈ pyDict d, kv.2.isObj = false :=
    fun kv hkv => h kv (mem_pyDict d kv hkv)
  rw [flattenFields_flat (pyDict d) hflat]
  exact pyDict_eq_self_of_nodup (pyDict d) (nodup_recKeys_pyDict d)

/-- Witness for C8 at the concrete flat dictionary
`{"a": 1, "b": "x"}`. -/
theorem flatten_dict_idempotent_on_flat_witness :
    (∀ kv ∈ ([("a", JVal.num 1), ("b", JVal.str "x")] : List (String × JVal)),
      kv.2.isObj = false)
    ∧ flatten_dict (flatten_dict [("a", JVal.num 1), ("b", JVal.str "x")])
        = flatten_dict [("a", JVal.num 1), ("b", JVal.str "x")] :=
  ⟨by simp [JVal.isObj],
   flatten_dict_idempotent_on_flat _ (by simp [JVal.isObj])⟩

/-- C9: `extract_initial_package_quantity_and_unit_or_null` is not total:
the class `[0-9,.]+` matches `"1.2.3"`, which `float()` rejects, so a
description beginning `"Packaged 1.2.3 Grams of"` raises `ValueError`
instead of returning a pair or `None`. -/
theorem extract_initial_quantity_raises_valueerror :
    extract_initial_package_quantity_and_unit_or_null "Packaged 1.2.3 Grams of"
      = .error "ValueError" := by decide

/-- C10: `flatten_dict` can silently lose entries: on
`{"a.b": 1, "a": {"b": 2}}` the two distinct leaves both map to the output
key `"a.b"`, the nested value overwrites the top-level one, and the
flattened dictionary has fewer entries than the input has leaves. -/
theorem flatten_dict_collision_loses_entries :
    flattenFields [("a.b", JVal.num 1), ("a", JVal.obj [("b", JVal.num 2)])] ""
      = [("a.b", JVal.num 1), ("a.b", JVal.num 2)]
    ∧ flatten_dict [("a.b", JVal.num 1), ("a", JVal.obj [("b", JVal.num 2)])]
      = [("a.b", JVal.num 2)]
    ∧ (flatten_dict [("a.b", JVal.num 1), ("a", JVal.obj [("b", JVal.num 2)])]).length
      < (flattenFields [("a.b", JVal.num 1), ("a", JVal.obj [("b", JVal.num 2)])] "").length := by
  refine ⟨?_, ?_, ?_⟩ <;>
    simp [flatten_dict, flattenFields, pyDict, recSet, recKeys]

/-- C4 counterexample: on an empty record list the inactive-packages writer
produces no output file at all (the claim says a valid header-only or empty
file is produced). -/
theorem write_to_csv_empty_counterexample :
    producesFile (InactivePackages.write_to_csv []) = false := rfl

/-- C4 amended: on an empty record list the writer raises no error and
writes no file; it only logs and returns. -/
theorem write_to_csv_empty_skips_write :
    InactivePackages.write_to_csv [] = .ok none := rfl

theorem max_pages_eq (total : ℕ) :
    max_pages total = (total + PAGE_SIZE - 1) / PAGE_SIZE := by
  unfold max_pages PAGE_SIZE
  have hpos : (0 : ℚ) < 500 := by norm_num
  apply le_antisymm
  · apply Nat.ceil_le.mpr
    push_cast
    rw [div_le_iff₀ hpos]
    have hnat : total ≤ ((total + 500 - 1) / 500) * 500 := by
      have hdm := Nat.div_add_mod (total + 499) 500
      have hml : (total + 499) % 500 < 500 := Nat.mod_lt _ (by norm_num)
      have : total + 500 - 1 = total + 499 := by omega
      rw [this]
      omega
    exact_mod_cast hnat
  · have hle : (total : ℚ) / 500 ≤ (⌈(total : ℚ) / 500⌉₊ : ℚ) := Nat.le_ceil _
    rw [div_le_iff₀ hpos] at hle
    have hnat : total ≤ ⌈(total : ℚ) / 500⌉₊ * 500 := by exact_mod_cast hle
    have h1 : total + 500 - 1 ≤ ⌈(total : ℚ) / 500⌉₊ * 500 + 499 := by omega
    calc (total + 500 - 1) / 500 ≤ (⌈(total : ℚ) / 500⌉₊ * 500 + 499) / 500 :=
        Nat.div_le_div_right h1
    _ = ⌈(total : ℚ) / 500⌉₊ := by
        rw [Nat.mul_comm]
        rw [Nat.mul_add_div (by norm_num)]
        norm_num

/-- C1: the paginated fetcher computes
`max_pages = ceil(total / PAGE_SIZE)` (equal to `(total + 499) / 500` in
integer arithmetic), submits exactly one fetch task per page index in
`[1, max_pages]` (the task list has length `max_pages`, is duplicate-free,
and contains exactly those indices), and for `total = 0` issues no page
task beyond the probe and aggregates an empty result. -/
theorem generate_report_pagination (total : ℕ) (fetch : ℕ → Except String JVal) :
    max_pages total = (total + PAGE_SIZE - 1) / PAGE_SIZE
    ∧ (pageIndices total).length = max_pages total
    ∧ (pageIndices total).Nodup
    ∧ (∀ p : ℕ, p ∈ pageIndices total ↔ 1 ≤ p ∧ p ≤ max_pages total)
    ∧ pageIndices 0 = []
    ∧ collectPages 0 fetch = [] := by
  have hzero : max_pages 0 = 0 := by rw [max_pages_eq]; rfl
  refine ⟨max_pages_eq total, by simp [pageIndices], List.nodup_range' _ _, ?_, ?_, ?_⟩
  · intro p
    unfold pageIndices
    rw [List.mem_range']
    constructor
    · rintro ⟨i, hi, rfl⟩
      omega
    · rintro ⟨h1, h2⟩
      exact ⟨p - 1, by omega, by omega⟩
  · unfold pageIndices
    rw [hzero]
    rfl
  · unfold collectPages pageIndices
    rw [hzero]
    rfl

theorem retryAux_all_fail (attempt : ℕ → ReqOutcome) (d : ℕ) :
    ∀ (fuel retries : ℕ), (∀ i < fuel, toSuccess (attempt (retries + i)) = none) →
      retryAux attempt d retries fuel
        = ⟨.error "Failed to complete request after max retries.", fuel, fuel * d⟩ := by
  intro fuel
  induction fuel with
  | zero => intro retries _; simp [retryAux]
  | succ n ih =>
    intro retries h
    have h0 : toSuccess (attempt retries) = none := by
      simpa using h 0 (by omega)
    have hrest : ∀ i < n, toSuccess (attempt (retries + 1 + i)) = none := by
      intro i hi
      have := h (i + 1) (by omega)
      have harg : retries + (i + 1) = retries + 1 + i := by omega
      rwa [harg] at this
    have hr := ih (retries + 1) hrest
    cases ha : attempt retries with
    | success v => rw [ha] at h0; simp [toSuccess] at h0
    | timeout =>
      simp only [retryAux, ha, hr]
      have : d + n * d = (n + 1) * d := by ring
      simp [this]
    | httpError st b =>
      simp only [retryAux, ha, hr]
      have : d + n * d = (n + 1) * d := by ring
      simp [this]
    | reqException m =>
      simp only [retryAux, ha, hr]
      have : d + n * d = (n + 1) * d := by ring
      simp [this]

theorem retryAux_first_success (attempt : ℕ → ReqOutcome) (d : ℕ) :
    ∀ (k fuel retries : ℕ) (v : JVal), k < fuel →
      (∀ i < k, toSuccess (attempt (retries + i)) = none) →
      toSuccess (attempt (retries + k)) = some v →
      retryAux attempt d retries fuel = ⟨.ok v, k + 1, k * d⟩ := by
  intro k
  induction k with
  | zero =>
    intro fuel retries v hf _ hs
    obtain ⟨m, rfl⟩ : ∃ m, fuel = m + 1 := ⟨fuel - 1, by omega⟩
    have hzero : toSuccess (attempt retries) = some v := by rwa [Nat.add_zero] at hs
    have hsucc : attempt retries = .success v := by
      cases ha : attempt retries
      case success w =>
        rw [ha] at hzero
        simp only [toSuccess, Option.some.injEq] at hzero
        rw [hzero]
      all_goals (rw [ha] at hzero; simp [toSuccess] at hzero)
    simp [retryAux, hsucc]
  | succ n ih =>
    intro fuel retries v hf hfail hs
    obtain ⟨m, rfl⟩ : ∃ m, fuel = m + 1 := ⟨fuel - 1, by omega⟩
    have h0 : toSuccess (attempt retries) = none := by
      simpa using hfail 0 (by omega)
    have hrest : ∀ i < n, toSuccess (attempt (retries + 1 + i)) = none := by
      intro i hi
      have := hfail (i + 1) (by omega)
      have harg : retries + (i + 1) = retries + 1 + i := by omega
      rwa [harg] at this
    have hs1 : toSuccess (attempt (retries + 1 + n)) = some v := by
      have harg : retries + (n + 1) = retries + 1 + n := by omega
      rwa [harg] at hs
    have hr := ih m (retries + 1) v (by omega) hrest hs1
    cases ha : attempt retries with
    | success w => rw [ha] at h0; simp [toSuccess] at h0
    | timeout =>
      simp only [retryAux, ha, hr]
      have : d + n * d = (n + 1) * d := by ring
      simp [this]
    | httpError st b =>
      simp only [retryAux, ha, hr]
      have : d + n * d = (n + 1) * d := by ring
      simp [this]
    | reqException m2 =>
      simp only [retryAux, ha, hr]
      have : d + n * d = (n + 1) * d := by ring
      simp [this]

theorem retryAux_attempts_le (attempt : ℕ → ReqOutcome) (d : ℕ) :
    ∀ (fuel retries : ℕ), (retryAux attempt d retries fuel).attemptsMade ≤ fuel := by
  intro fuel
  induction fuel with
  | zero => intro retries; simp [retryAux]
  | succ n ih =>
    intro retries
    cases ha : attempt retries <;> simp [retryAux, ha] <;>
      exact ih (retries + 1)

theorem retryAux_congr (a b : ℕ → ReqOutcome) (d : ℕ)
    (h : ∀ i, toSuccess (a i) = toSuccess (b i)) :
    ∀ (fuel retries : ℕ), retryAux a d retries fuel = retryAux b d retries fuel := by
  intro fuel
  induction fuel with
  | zero => intro retries; rfl
  | succ n ih =>
    intro retries
    have hr := h retries
    cases ha : a retries <;> cases hb : b retries <;>
      rw [ha, hb] at hr <;> simp only [toSuccess] at hr
    all_goals simp_all [retryAux]

/-- C2: `make_request_with_retries` makes at most `MAX_RETRIES = 5` attempts
with a fixed `RETRY_DELAY = 5` second sleep after each failed attempt; a
first success at attempt `k` returns its payload after `k` sleeps; when all
five attempts fail it raises (returns no value) after five sleeps; and the
loop treats timeout, HTTP error and generic request exceptions identically:
the run depends only on which attempts succeed, not on the exception kind
(in particular no status code is treated as non-retryable). -/
theorem make_request_with_retries_spec (attempt : ℕ → ReqOutcome) :
    (make_request_with_retries attempt).attemptsMade ≤ MAX_RETRIES
    ∧ ((∀ i < MAX_RETRIES, toSuccess (attempt i) = none) →
        make_request_with_retries attempt
          = ⟨.error "Failed to complete request after max retries.", MAX_RETRIES,
             MAX_RETRIES * RETRY_DELAY⟩)
    ∧ (∀ (k : ℕ) (v : JVal), k < MAX_RETRIES →
        (∀ i < k, toSuccess (attempt i) = none) →
        toSuccess (attempt k) = some v →
        make_request_with_retries attempt = ⟨.ok v, k + 1, k * RETRY_DELAY⟩)
    ∧ (∀ b : ℕ → ReqOutcome, (∀ i, toSuccess (attempt i) = toSuccess (b i)) →
        make_request_with_retries attempt = make_request_with_retries b) := by
  refine ⟨?_, ?_, ?_, ?_⟩
  · exact retryAux_attempts_le attempt RETRY_DELAY MAX_RETRIES 0
  · intro h
    exact retryAux_all_fail attempt RETRY_DELAY MAX_RETRIES 0 (fun i hi => by
      simpa using h i hi)
  · intro k v hk hfail hs
    exact retryAux_first_success attempt RETRY_DELAY k MAX_RETRIES 0 v hk
      (fun i hi => by simpa using hfail i hi) (by simpa using hs)
  · intro b hb
    exact retryAux_congr attempt b RETRY_DELAY hb MAX_RETRIES 0

/-- Witness for C2: all five attempts time out, so the call raises after 5
attempts and 25 seconds of sleeping; and a failure followed by a success
returns the payload on the second attempt after one 5-second sleep. -/
theorem make_request_with_retries_spec_witness :
    make_request_with_retries (fun _ => ReqOutcome.timeout)
      = ⟨.error "Failed to complete request after max retries.", MAX_RETRIES,
         MAX_RETRIES * RETRY_DELAY⟩
    ∧ make_request_with_retries
        (fun i => if i = 0 then ReqOutcome.reqException "boom"
          else ReqOutcome.success JVal.null)
      = ⟨.ok JVal.null, 2, 1 * RETRY_DELAY⟩ := by
  constructor
  · exact (make_request_with_retries_spec _).2.1 (fun i _ => rfl)
  · exact (make_request_with_retries_spec _).2.2.1 1 JVal.null (by norm_num [MAX_RETRIES])
      (fun i hi => by interval_cases i; rfl) rfl

theorem attachQuantityStep_shape (pkg r : Rec) (h : attachQuantityStep pkg = .ok r) :
    r = pkg ∨ ∃ q u, r = recSet (recSet pkg "initialQuantity" (JVal.num q))
      "initialUnit" (JVal.str u) := by
  unfold attachQuantityStep at h
  repeat' split at h
  all_goals first
    | (exact Except.noConfusion h)
    | (injection h with h; exact Or.inl h.symm)
    | (injection h with h; exact Or.inr ⟨_, _, h.symm⟩)

theorem processHistoryResult_frame (pkg : Rec) (res : Except String JVal) (k : String)
    (h1 : k ≠ "_history") (h2 : k ≠ "initialQuantity") (h3 : k ≠ "initialUnit") :
    recFind? (processHistoryResult pkg res) k = recFind? pkg k := by
  unfold processHistoryResult
  cases res with
  | error e => rfl
  | ok history =>
    by_cases ht : truthy history
    · simp only [ht, if_true]
      cases hg : pyGet history "data" with
      | error e => rfl
      | ok d =>
        cases hq : attachQuantityStep (recSet pkg "_history" d) with
        | error e =>
          simp only [hq]
          exact recFind?_recSet_ne pkg "_history" k d h1
        | ok pkg2 =>
          simp only [hq]
          rcases attachQuantityStep_shape _ _ hq with rfl | ⟨q, u, rfl⟩
          · exact recFind?_recSet_ne pkg "_history" k d h1
          · rw [recFind?_recSet_ne _ _ _ _ h3, recFind?_recSet_ne _ _ _ _ h2,
              recFind?_recSet_ne _ _ _ _ h1]
    · simp [ht]

theorem processLabResult_frame (pkg : Rec) (res : Except String JVal) (k : String)
    (h4 : k ≠ "_labresults") :
    recFind? (processLabResult pkg res) k = recFind? pkg k := by
  unfold processLabResult
  cases res with
  | error e => rfl
  | ok history =>
    by_cases ht : truthy history
    · simp only [ht, if_true]
      cases hg : pyGet history "data" with
      | error e => rfl
      | ok d => exact recFind?_recSet_ne pkg "_labresults" k d h4
    · simp [ht]

theorem processHistoryResult_mkHistory (pkg : Rec) (d : String) :
    processHistoryResult pkg (.ok (mkHistoryResponse d))
      = (match extract_initial_package_quantity_and_unit_or_null d with
         | .ok (some (q, u)) =>
             recSet (recSet (recSet pkg "_history"
               (.arr [.obj [("descriptions", .arr [.str d])]]))
               "initialQuantity" (.num q)) "initialUnit" (.str u)
         | _ => recSet pkg "_history" (.arr [.obj [("descriptions", .arr [.str d])]])) := by
  cases hx : extract_initial_package_quantity_and_unit_or_null d with
  | error e =>
    simp [processHistoryResult, mkHistoryResponse, pyGet, recFind?, truthy,
      attachQuantityStep, recFind?_recSet_self, pyIndex, pySubscr, hx]
  | ok o =>
    cases o with
    | none =>
      simp [processHistoryResult, mkHistoryResponse, pyGet, recFind?, truthy,
        attachQuantityStep, recFind?_recSet_self, pyIndex, pySubscr, hx]
    | some qu =>
      obtain ⟨q, u⟩ := qu
      simp [processHistoryResult, mkHistoryResponse, pyGet, recFind?, truthy,
        attachQuantityStep, recFind?_recSet_self, pyIndex, pySubscr, hx]

/-- C5: the regex extraction returns `(5.0, "Grams")` on
`"Packaged 5.0 Grams of Flower"`, `(3.0, "Each")` on `"Packaged 3 plants"`,
`(2.0, "Each")` on `"Repackaged 2 plants"`, `None` on
`"Harvested from plant"`; and whenever no pattern matches a record's first
history description, the joiner leaves the `initialQuantity` and
`initialUnit` fields absent from the record. -/
theorem extract_initial_quantity_spec :
    extract_initial_package_quantity_and_unit_or_null "Packaged 5.0 Grams of Flower"
      = .ok (some (5, "Grams"))
    ∧ extract_initial_package_quantity_and_unit_or_null "Packaged 3 plants"
      = .ok (some (3, "Each"))
    ∧ extract_initial_package_quantity_and_unit_or_null "Repackaged 2 plants"
      = .ok (some (2, "Each"))
    ∧ extract_initial_package_quantity_and_unit_or_null "Harvested from plant"
      = .ok none
    ∧ (∀ (pkg : Rec) (d : String),
        extract_initial_package_quantity_and_unit_or_null d = .ok none →
        "initialQuantity" ∉ recKeys pkg →
        "initialUnit" ∉ recKeys pkg →
        recFind? (processHistoryResult pkg (.ok (mkHistoryResponse d)))
          "initialQuantity" = none
        ∧ recFind? (processHistoryResult pkg (.ok (mkHistoryResponse d)))
          "initialUnit" = none) := by
  refine ⟨by decide, by decide, by decide, by decide, ?_⟩
  intro pkg d hx hq hu
  rw [processHistoryResult_mkHistory, hx]
  constructor
  · rw [recFind?_recSet_ne _ _ _ _ (by decide)]
    exact recFind?_eq_none pkg _ hq
  · rw [recFind?_recSet_ne _ _ _ _ (by decide)]
    exact recFind?_eq_none pkg _ hu

/-- Witness for C5 at the concrete record `{"id": 7}` and the unmatched
description `"Harvested from plant"`. -/
theorem extract_initial_quantity_spec_witness :
    recFind? (processHistoryResult [("id", JVal.num 7)]
        (.ok (mkHistoryResponse "Harvested from plant"))) "initialQuantity" = none
    ∧ recFind? (processHistoryResult [("id", JVal.num 7)]
        (.ok (mkHistoryResponse "Harvested from plant"))) "initialUnit" = none :=
  extract_initial_quantity_spec.2.2.2.2 [("id", JVal.num 7)] "Harvested from plant"
    (by decide) (by decide) (by decide)

/-- C7 counterexample: on a record whose history's first description is
`"Packaged 3 plants"`, the joiner attaches `initialQuantity` — a key that is
neither a pre-existing field nor `_history`/`_labresults` — so records are
not mutated only by attaching a `_history` or `_labresults` key. -/
theorem detail_join_frame_counterexample :
    "initialQuantity" ∈ recKeys (processHistoryResult [("id", JVal.num 7)]
        (.ok (mkHistoryResponse "Packaged 3 plants")))
    ∧ "initialQuantity" ∉
        recKeys ([("id", JVal.num 7)] : Rec) ++ ["_history", "_labresults"] := by
  constructor
  · decide
  · decide

/-- C7 amended: the history joiner mutates a record only at the keys
`_history`, `initialQuantity` and `initialUnit`, the lab-results joiner only
at `_labresults`; every other field keeps its value; and the
inactive-packages CSV writer strips every underscore-prefixed key from the
header. -/
theorem detail_join_frame (pkg : Rec) (res : Except String JVal) (k : String)
    (h1 : k ≠ "_history") (h2 : k ≠ "initialQuantity") (h3 : k ≠ "initialUnit")
    (h4 : k ≠ "_labresults") :
    recFind? (processHistoryResult pkg res) k = recFind? pkg k
    ∧ recFind? (processLabResult pkg res) k = recFind? pkg k
    ∧ (∀ (p0 : Rec) (rest : List Rec) (f : CsvFile),
        InactivePackages.write_to_csv (p0 :: rest) = .ok (some f) →
        ∀ a ∈ f.header, strStartsWith a "_" = false) := by
  refine ⟨processHistoryResult_frame pkg res k h1 h2 h3,
    processLabResult_frame pkg res k h4, ?_⟩
  intro p0 rest f hw a ha
  unfold InactivePackages.write_to_csv at hw
  injection hw with hw
  injection hw with hw
  rw [← hw] at ha
  have := List.of_mem_filter ha
  simpa using this

/-- Witness for C7 at a concrete record, response and key. -/
theorem detail_join_frame_witness :
    recFind? (processHistoryResult [("label", JVal.str "L")]
      (.ok (mkHistoryResponse "Harvested from plant"))) "label"
      = recFind? [("label", JVal.str "L")] "label" :=
  (detail_join_frame [("label", JVal.str "L")]
    (.ok (mkHistoryResponse "Harvested from plant")) "label"
    (by decide) (by decide) (by decide) (by decide)).1

/-- C3: the joiner itself isolates a failed detail fetch (the first record
is left untouched, the second still gets its lab results), but
`write_to_csv` of `export_lab_results.py` then subscripts
`pkg["_labresults"]`, which raises `KeyError` on the record whose fetch
failed: no row — for any record — is written, contradicting the claim that
the failure does not abort the run. -/
theorem detail_join_failure_aborts_lab_write :
    fetch_package_lab_results
        [[("id", JVal.num 1), ("label", JVal.str "A")],
         [("id", JVal.num 2), ("label", JVal.str "B")]]
        (fun i => if i = 0 then .error "Exception"
          else .ok (.obj [("data", .arr [.obj [("testType", JVal.str "THC")]])]))
      = [[("id", JVal.num 1), ("label", JVal.str "A")],
         [("id", JVal.num 2), ("label", JVal.str "B"),
          ("_labresults", .arr [.obj [("testType", JVal.str "THC")]])]]
    ∧ LabResults.write_to_csv
        [[("id", JVal.num 1), ("label", JVal.str "A")],
         [("id", JVal.num 2), ("label", JVal.str "B"),
          ("_labresults", .arr [.obj [("testType", JVal.str "THC")]])]]
        ["labresult.testType", "id", "label"]
      = .error "KeyError" := by
  constructor <;> rfl

theorem mapM_labRow_obj (pkg : Rec) (lrs : List Rec) :
    exceptMapM (fun lr =>
      match lr with
      | .obj f => Except.ok (labRow pkg f)
      | _ => Except.error "AttributeError") (lrs.map JVal.obj)
      = Except.ok (lrs.map (fun lr => labRow pkg lr)) := by
  induction lrs with
  | nil => rfl
  | cons f rest ih => simp [exceptMapM, ih]

theorem labRowsOfPkg_mk (b : Rec) (lrs : List Rec) :
    labRowsOfPkg (mkLabPackage b lrs)
      = Except.ok (lrs.map (fun lr => labRow (mkLabPackage b lrs) lr)) := by
  unfold labRowsOfPkg
  have hf : recFind? (mkLabPackage b lrs) "_labresults"
      = some (.arr (lrs.map JVal.obj)) := recFind?_recSet_self b _ _
  rw [hf]
  exact mapM_labRow_obj (mkLabPackage b lrs) lrs

theorem mapM_labRowsOfPkg (pkgs : List (Rec × List Rec)) :
    exceptMapM labRowsOfPkg (pkgs.map (fun bl => mkLabPackage bl.1 bl.2))
      = Except.ok (pkgs.map (fun bl =>
          bl.2.map (fun lr => labRow (mkLabPackage bl.1 bl.2) lr))) := by
  induction pkgs with
  | nil => rfl
  | cons bl rest ih => simp [exceptMapM, labRowsOfPkg_mk, ih]

theorem labRowsModel_length (pkgs : List (Rec × List Rec)) :
    (labRowsModel pkgs).length = (pkgs.map (fun bl => bl.2.length)).sum := by
  unfold labRowsModel
  induction pkgs with
  | nil => rfl
  | cons bl rest ih => simp [List.flatMap_cons, ih]

theorem sortKey_le_five (x : String) : sortKey x ≤ 5 := by
  unfold sortKey
  by_cases h : x ∈ priority_order
  · rw [if_pos h]
    have hlt := List.indexOf_lt_length.mpr h
    have hlen : priority_order.length = 4 := rfl
    omega
  · rw [if_neg h]
    by_cases h2 : strStartsWith x "labresult."
    · rw [if_pos h2]
      decide
    · rw [if_neg h2]
      decide

theorem sortKey_eq_zero_iff (x : String) : sortKey x = 0 ↔ x = "label" := by
  constructor
  · intro h
    by_cases hm : x ∈ priority_order
    · simp only [priority_order, List.mem_cons, List.not_mem_nil, or_false] at hm
      rcases hm with rfl | rfl | rfl | rfl
      · rfl
      · exact absurd h (by decide)
      · exact absurd h (by decide)
      · exact absurd h (by decide)
    · unfold sortKey at h
      rw [if_neg hm] at h
      by_cases h2 : strStartsWith x "labresult."
      · rw [if_pos h2] at h
        exact absurd h (by decide)
      · rw [if_neg h2] at h
        exact absurd h (by decide)
  · rintro rfl
    decide

theorem sortKey_eq_one_iff (x : String) : sortKey x = 1 ↔ x = "item.name" := by
  constructor
  · intro h
    by_cases hm : x ∈ priority_order
    · simp only [priority_order, List.mem_cons, List.not_mem_nil, or_false] at hm
      rcases hm with rfl | rfl | rfl | rfl
      · exact absurd h (by decide)
      · rfl
      · exact absurd h (by decide)
      · exact absurd h (by decide)
    · unfold sortKey at h
      rw [if_neg hm] at h
      by_cases h2 : strStartsWith x "labresult."
      · rw [if_pos h2] at h
        exact absurd h (by decide)
      · rw [if_neg h2] at h
        exact absurd h (by decide)
  · rintro rfl
    decide

theorem sortKey_eq_two_iff (x : String) : sortKey x = 2 ↔ x = "quantity" := by
  constructor
  · intro h
    by_cases hm : x ∈ priority_order
    · simp only [priority_order, List.mem_cons, List.not_mem_nil, or_false] at hm
      rcases hm with rfl | rfl | rfl | rfl
      · exact absurd h (by decide)
      · exact absurd h (by decide)
      · rfl
      · exact absurd h (by decide)
    · unfold sortKey at h
      rw [if_neg hm] at h
      by_cases h2 : strStartsWith x "labresult."
      · rw [if_pos h2] at h
        exact absurd h (by decide)
      · rw [if_neg h2] at h
        exact absurd h (by decide)
  · rintro rfl
    decide

theorem sortKey_eq_three_iff (x : String) :
    sortKey x = 3 ↔ x = "unitOfMeasureAbbreviation" := by
  constructor
  · intro h
    by_cases hm : x ∈ priority_order
    · simp only [priority_order, List.mem_cons, List.not_mem_nil, or_false] at hm
      rcases hm with rfl | rfl | rfl | rfl
      · exact absurd h (by decide)
      · exact absurd h (by decide)
      · exact absurd h (by decide)
      · rfl
    · unfold sortKey at h
      rw [if_neg hm] at h
      by_cases h2 : strStartsWith x "labresult."
      · rw [if_pos h2] at h
        exact absurd h (by decide)
      · rw [if_neg h2] at h
        exact absurd h (by decide)
  · rintro rfl
    decide

theorem sortKey_eq_four_iff (x : String) :
    sortKey x = 4 ↔ (x ∉ priority_order ∧ strStartsWith x "labresult." = true) := by
  constructor
  · intro h
    by_cases hm : x ∈ priority_order
    · simp only [priority_order, List.mem_cons, List.not_mem_nil, or_false] at hm
      rcases hm with rfl | rfl | rfl | rfl <;> exact absurd h (by decide)
    · unfold sortKey at h
      rw [if_neg hm] at h
      by_cases h2 : strStartsWith x "labresult."
      · exact ⟨hm, h2⟩
      · rw [if_neg h2] at h
        exact absurd h (by decide)
  · rintro ⟨hm, h2⟩
    unfold sortKey
    rw [if_neg hm, if_pos h2]
    rfl

theorem sortKey_eq_five_iff (x : String) :
    sortKey x = 5 ↔ (x ∉ priority_order ∧ strStartsWith x "labresult." = false) := by
  constructor
  · intro h
    by_cases hm : x ∈ priority_order
    · simp only [priority_order, List.mem_cons, List.not_mem_nil, or_false] at hm
      rcases hm with rfl | rfl | rfl | rfl <;> exact absurd h (by decide)
    · unfold sortKey at h
      rw [if_neg hm] at h
      by_cases h2 : strStartsWith x "labresult."
      · rw [if_pos h2] at h
        exact absurd h (by decide)
      · exact ⟨hm, by simpa using h2⟩
  · rintro ⟨hm, h2⟩
    unfold sortKey
    rw [if_neg hm, if_neg (by simp [h2])]
    rfl

theorem mem_orderedFieldnames (l : List String) (a : String) :
    a ∈ orderedFieldnames l ↔ a ∈ l := by
  unfold orderedFieldnames
  simp only [List.mem_flatMap, List.mem_filter, List.mem_range, beq_iff_eq]
  constructor
  · rintro ⟨b, _, ha, _⟩
    exact ha
  · intro ha
    refine ⟨sortKey a, ?_, ha, rfl⟩
    have := sortKey_le_five a
    have hlen : priority_order.length = 4 := rfl
    omega

theorem orderedFieldnames_eq_buckets (l : List String) :
    orderedFieldnames l
      = l.filter (fun x => sortKey x == 0) ++ (l.filter (fun x => sortKey x == 1)
        ++ (l.filter (fun x => sortKey x == 2) ++ (l.filter (fun x => sortKey x == 3)
        ++ (l.filter (fun x => sortKey x == 4) ++ l.filter (fun x => sortKey x == 5))))) := by
  unfold orderedFieldnames
  rw [show List.range (priority_order.length + 2) = [0, 1, 2, 3, 4, 5] from by decide]
  simp [List.flatMap_cons]

theorem bucket_eq_of_iff (l : List String) (b : ℕ) (q : String → Bool)
    (h : ∀ x, sortKey x = b ↔ q x = true) :
    l.filter (fun x => sortKey x == b) = l.filter q := by
  apply List.filter_congr
  intro x _
  rw [Bool.eq_iff_iff, beq_iff_eq]
  exact h x

theorem filter_eq_key_of_nodup (l : List String) (a : String) (h : l.Nodup) :
    l.filter (fun x => x == a) = if a ∈ l then [a] else [] := by
  induction l with
  | nil => simp
  | cons b rest ih =>
    rw [List.nodup_cons] at h
    by_cases hb : b = a
    · subst hb
      rw [List.filter_cons]
      simp only [beq_self_eq_true, if_pos]
      rw [ih h.2, if_neg h.1]
      simp
    · rw [List.filter_cons]
      have hbb : (b == a) = false := by simp [hb]
      simp only [hbb, Bool.false_eq_true, if_neg, not_false_eq_true]
      rw [ih h.2]
      have hmem : (a ∈ b :: rest) ↔ (a ∈ rest) := by
        rw [List.mem_cons]
        have hab : ¬a = b := fun hc => hb hc.symm
        tauto
      rw [if_congr hmem rfl rfl]

theorem orderedFieldnames_decomposition (l : List String) (h : l.Nodup) :
    orderedFieldnames l
      = priority_order.filter (fun p => p ∈ l)
        ++ l.filter (fun x => decide (x ∉ priority_order) && strStartsWith x "labresult.")
        ++ l.filter (fun x => decide (x ∉ priority_order) && !strStartsWith x "labresult.") := by
  rw [orderedFieldnames_eq_buckets]
  rw [bucket_eq_of_iff l 0 (fun x => x == "label")
      (fun x => by rw [beq_iff_eq]; exact sortKey_eq_zero_iff x)]
  rw [bucket_eq_of_iff l 1 (fun x => x == "item.name")
      (fun x => by rw [beq_iff_eq]; exact sortKey_eq_one_iff x)]
  rw [bucket_eq_of_iff l 2 (fun x => x == "quantity")
      (fun x => by rw [beq_iff_eq]; exact sortKey_eq_two_iff x)]
  rw [bucket_eq_of_iff l 3 (fun x => x == "unitOfMeasureAbbreviation")
      (fun x => by rw [beq_iff_eq]; exact sortKey_eq_three_iff x)]
  rw [bucket_eq_of_iff l 4
      (fun x => decide (x ∉ priority_order) && strStartsWith x "labresult.")
      (fun x => by
        rw [Bool.and_eq_true, decide_eq_true_eq]
        exact sortKey_eq_four_iff x)]
  rw [bucket_eq_of_iff l 5
      (fun x => decide (x ∉ priority_order) && !strStartsWith x "labresult.")
      (fun x => by
        rw [Bool.and_eq_true, decide_eq_true_eq, Bool.not_eq_true']
        exact sortKey_eq_five_iff x)]
  rw [filter_eq_key_of_nodup l "label" h, filter_eq_key_of_nodup l "item.name" h,
    filter_eq_key_of_nodup l "quantity" h,
    filter_eq_key_of_nodup l "unitOfMeasureAbbreviation" h]
  by_cases h1 : "label" ∈ l <;> by_cases h2 : "item.name" ∈ l <;>
    by_cases h3 : "quantity" ∈ l <;> by_cases h4 : "unitOfMeasureAbbreviation" ∈ l <;>
    simp [priority_order, List.filter_cons, h1, h2, h3, h4]

/-- C6 amended: the lab-results writer emits exactly one CSV row per
(package × lab result) pair, every lab-result field appears under a key
prefixed `labresult.`, and the columns are ordered: the fixed preference
list `["label", "item.name", "quantity", "unitOfMeasureAbbreviation"]`
first, then all remaining `labresult.`-prefixed columns, then all other
columns — the latter two groups keeping the (unspecified) iteration order
of the field-name set, not alphabetical order. -/
theorem lab_write_to_csv_spec (pkgs : List (Rec × List Rec)) (setOrder : List String)
    (hne : pkgs ≠ []) (hnd : setOrder.Nodup)
    (hext : ∀ a, a ∈ setOrder ↔ a ∈ (labRowsModel pkgs).flatMap recKeys) :
    LabResults.write_to_csv (pkgs.map (fun bl => mkLabPackage bl.1 bl.2)) setOrder
      = .ok (some ⟨orderedFieldnames setOrder, labRowsModel pkgs⟩)
    ∧ (labRowsModel pkgs).length = (pkgs.map (fun bl => bl.2.length)).sum
    ∧ (∀ (pkg lr : Rec) (k : String), k ∈ recKeys lr →
        ("labresult." ++ k) ∈ recKeys (labRow pkg lr))
    ∧ orderedFieldnames setOrder
      = priority_order.filter (fun p => p ∈ setOrder)
        ++ setOrder.filter
            (fun x => decide (x ∉ priority_order) && strStartsWith x "labresult.")
        ++ setOrder.filter
            (fun x => decide (x ∉ priority_order) && !strStartsWith x "labresult.") := by
  refine ⟨?_, labRowsModel_length pkgs, ?_, orderedFieldnames_decomposition setOrder hnd⟩
  · have hall : ((labRowsModel pkgs).all
        (fun r => r.all (fun kv => (orderedFieldnames setOrder).contains kv.1))) = true := by
      rw [List.all_eq_true]
      intro r hr
      rw [List.all_eq_true]
      intro kv hkv
      have hk : kv.1 ∈ recKeys r := List.mem_map.mpr ⟨kv, hkv, rfl⟩
      have hfm : kv.1 ∈ (labRowsModel pkgs).flatMap recKeys :=
        List.mem_flatMap.mpr ⟨r, hr, hk⟩
      have hso : kv.1 ∈ setOrder := (hext kv.1).mpr hfm
      have hof : kv.1 ∈ orderedFieldnames setOrder :=
        (mem_orderedFieldnames _ _).mpr hso
      exact List.elem_eq_true_of_mem hof
    obtain ⟨bl0, rest, rfl⟩ : ∃ bl0 rest, pkgs = bl0 :: rest := by
      cases pkgs with
      | nil => exact absurd rfl hne
      | cons a b => exact ⟨a, b, rfl⟩
    have hlrm : labRowsModel (bl0 :: rest)
        = ((bl0 :: rest).map (fun bl =>
            bl.2.map (fun lr => labRow (mkLabPackage bl.1 bl.2) lr))).flatten := rfl
    unfold LabResults.write_to_csv
    simp only [List.map_cons]
    rw [← List.map_cons (fun bl => mkLabPackage bl.1 bl.2) bl0 rest, mapM_labRowsOfPkg]
    rw [hlrm] at hall
    change (if (((bl0 :: rest).map (fun bl =>
          bl.2.map (fun lr => labRow (mkLabPackage bl.1 bl.2) lr))).flatten.all
        (fun r => r.all (fun kv => (orderedFieldnames setOrder).contains kv.1))) = true then
        Except.ok (some (CsvFile.mk (orderedFieldnames setOrder)
          ((bl0 :: rest).map (fun bl =>
            bl.2.map (fun lr => labRow (mkLabPackage bl.1 bl.2) lr))).flatten))
      else Except.error "ValueError")
      = Except.ok (some (CsvFile.mk (orderedFieldnames setOrder) (labRowsModel (bl0 :: rest))))
    rw [hall, if_pos rfl, hlrm]
  · intro pkg lr k hk
    unfold labRow
    rw [mem_recKeys_pyDict, List.map_append]
    apply List.mem_append.mpr
    left
    simp only [List.map_map]
    obtain ⟨kv, hkv, rfl⟩ := List.mem_map.mp hk
    exact List.mem_map.mpr ⟨kv, hkv, rfl⟩

/-- C6 counterexample: with field-name set `{"labresult.x", "z", "b"}`
(no priority names present), the claimed fallback would order the
non-priority columns alphabetically, starting with `"b"`; the code instead
puts the `labresult.`-prefixed column first and keeps the set-enumeration
order for the rest.  At the enumeration `["labresult.x", "z", "b"]` the
written header is `["labresult.x", "z", "b"]`, not the claimed
`["b", "labresult.x", "z"]`. -/
theorem lab_write_ordering_counterexample :
    LabResults.write_to_csv
        [[("z", JVal.null), ("b", JVal.null),
          ("_labresults", JVal.arr [JVal.obj [("x", JVal.null)]])]]
        ["labresult.x", "z", "b"]
      = .ok (some ⟨["labresult.x", "z", "b"],
          [[("labresult.x", JVal.null), ("z", JVal.null), ("b", JVal.null)]]⟩)
    ∧ specOrderedFieldnames ["labresult.x", "z", "b"] = ["b", "labresult.x", "z"]
    ∧ orderedFieldnames ["labresult.x", "z", "b"]
        ≠ specOrderedFieldnames ["labresult.x", "z", "b"] :=
  ⟨rfl, by decide, by decide⟩

/-- Witness for C6 at one package with one lab result. -/
theorem lab_write_to_csv_spec_witness :
    LabResults.write_to_csv
        ([([("label", JVal.str "L"), ("z", JVal.null)], [[("x", JVal.null)]])].map
          (fun bl => mkLabPackage bl.1 bl.2))
        ["labresult.x", "label", "z"]
      = .ok (some ⟨orderedFieldnames ["labresult.x", "label", "z"],
          labRowsModel
            [([("label", JVal.str "L"), ("z", JVal.null)], [[("x", JVal.null)]])]⟩) :=
  (lab_write_to_csv_spec
      [([("label", JVal.str "L"), ("z", JVal.null)], [[("x", JVal.null)]])]
      ["labresult.x", "label", "z"]
      (by simp) (by decide)
      (fun a => by
        rw [show (labRowsModel [([("label", JVal.str "L"), ("z", JVal.null)],
            [[("x", JVal.null)]])]).flatMap recKeys
            = ["labresult.x", "label", "z"] from by decide])).1
